import Mathlib

/-
Verification of the pd-ai-agents-registry backend (Go) against its
natural-language specification.

The definitions below are a shallow embedding of the relevant Go code:

* backend/internal/api/handlers (updates handler: UploadUpdate,
  DownloadUpdate, DeleteUpdate, updateLatestVersionDocument,
  compareVersions, isValidPlatform, isValidArch, generateAllPlatformKeys),
* backend/internal/api/handlers/files.go (processUploadedFile),
* backend/internal/api/handlers/download.go (DownloadPackage),
* backend/internal/api/handlers (packages handler: UploadPackage,
  DeletePackage),
* backend/internal/config/config.go (catalog store operations),
* backend/internal/api/middleware (rate limiter) together with the router
  configuration that wires it.

Go strings are modelled as Lean String (manipulations are carried out on the
character list to stay computable); Go maps keyed by strings are modelled as
association lists with first-match lookup and replace-or-append insertion;
MongoDB collections are modelled as lists of records with first-match
semantics for FindOne/UpdateOne; fallible external calls (object store,
database) are modelled by explicit outcome parameters.
-/

set_option autoImplicit false

namespace Registry

/-! ## Go string helpers -/

/-- Go strings.TrimPrefix(s, "v") on the character list: drops one leading
character when it is the letter v, otherwise returns the list unchanged. -/
def trimVChars (s : List Char) : List Char :=
  match s with
  | [] => []
  | c :: rest => if c = 'v' then rest else c :: rest

/-- Go strings.TrimPrefix(s, "v") on String. -/
def trimV (s : String) : String := ⟨trimVChars s.data⟩

/-- Go strings.Split(s, ".") on the character list: splitting an n-dot string
yields n+1 pieces; the empty string yields one empty piece. -/
def splitOnDot : List Char → List (List Char)
  | [] => [[]]
  | c :: rest =>
    if c = '.' then [] :: splitOnDot rest
    else
      match splitOnDot rest with
      | [] => [[c]]
      | p :: ps => (c :: p) :: ps

/-- ASCII decimal digit test (what Go strconv applies to each byte of the
number: the character code is between 48 and 57). -/
def isDigitCh (c : Char) : Bool := 48 ≤ c.toNat && c.toNat ≤ 57

/-- Value of a list of decimal digit characters, most significant first. -/
def digitsToNat (l : List Char) : Nat :=
  l.foldl (fun a c => a * 10 + (c.toNat - 48)) 0

/-- Splits an optional leading sign off a Go integer literal:
(negative?, remaining characters). -/
def splitSign (l : List Char) : Bool × List Char :=
  match l with
  | [] => (false, [])
  | c :: rest =>
    if c = '+' then (false, rest)
    else if c = '-' then (true, rest)
    else (false, c :: rest)

/-- The integer a string denotes under Go strconv syntax (optional sign, then
one or more decimal digits), and 0 when the string is not of that shape.
This is the unbounded value, before Go clamps it to the int64 range. -/
def atoiVal (l : List Char) : Int :=
  let s := splitSign l
  if s.2 ≠ [] ∧ s.2.all isDigitCh then
    if s.1 then -(digitsToNat s.2 : Int) else (digitsToNat s.2 : Int)
  else 0

def int64Max : Int := 9223372036854775807

def int64Min : Int := -9223372036854775808

/-- Clamp to the int64 range (Go strconv.ParseInt returns the nearest
representable value together with a range error). -/
def clampInt64 (v : Int) : Int :=
  if v > int64Max then int64Max else if v < int64Min then int64Min else v

/-- Go strconv.Atoi with the error discarded, as the handlers use it:
a syntactically invalid string gives 0, an out-of-range value is clamped. -/
def goAtoi (l : List Char) : Int := clampInt64 (atoiVal l)

/-! ## compareVersions (updates handler) -/

/-- The segment comparison loop of compareVersions: compare corresponding
segments numerically left to right, first difference wins; when the shared
segments are all equal the longer list is greater. -/
def cmpParts : List (List Char) → List (List Char) → Int
  | [], [] => 0
  | [], _ :: _ => -1
  | _ :: _, [] => 1
  | a :: as, b :: bs =>
    if goAtoi a > goAtoi b then 1
    else if goAtoi a < goAtoi b then -1
    else cmpParts as bs

/-- compareVersions from the updates handler: trim one leading letter v from
each argument, split on dots, then compare segment-wise. -/
def compareVersions (v1 v2 : String) : Int :=
  cmpParts (splitOnDot (trimVChars v1.data)) (splitOnDot (trimVChars v2.data))

/-- Segment comparison written from the words of the specification, with
segments taken as unbounded integers (non-numeric segments parse as 0). -/
def specCmpParts : List (List Char) → List (List Char) → Int
  | [], [] => 0
  | [], _ :: _ => -1
  | _ :: _, [] => 1
  | a :: as, b :: bs =>
    if atoiVal a > atoiVal b then 1
    else if atoiVal a < atoiVal b then -1
    else specCmpParts as bs

/-- The comparison the specification sentence describes: split both strings
on dots and compare segment-wise, nothing else (in particular no stripping of
a leading letter v). -/
def segmentwiseCompare (v1 v2 : String) : Int :=
  specCmpParts (splitOnDot v1.data) (splitOnDot v2.data)

/-! ## Platform and architecture validation (updates handler) -/

/-- The architecture aliasing the handlers apply before validation and wherever
an architecture is consumed: x86 becomes i686 and arm64 becomes aarch64. -/
def normalizeArchAlias (arch : String) : String :=
  if arch = "x86" then "i686" else if arch = "arm64" then "aarch64" else arch

/-- isValidPlatform: membership in the fixed platform map. -/
def isValidPlatform (platform : String) : Bool :=
  ["windows", "darwin", "linux"].contains platform

/-- isValidArch: alias normalization followed by membership in the fixed
architecture map. -/
def isValidArch (arch : String) : Bool :=
  ["x86_64", "i686", "armv7", "aarch64"].contains (normalizeArchAlias arch)

/-- generateAllPlatformKeys: the 12 platform-arch keys, platform outer loop,
architecture inner loop. -/
def generateAllPlatformKeys : List String :=
  ["windows", "darwin", "linux"].flatMap
    (fun platform =>
      ["x86_64", "i686", "armv7", "aarch64"].map
        (fun arch => platform ++ "-" ++ arch))

/-! ## Association-list maps (Go string-keyed maps and MongoDB single-document
upserts are modelled with first-match lookup and replace-or-append write) -/

/-- First entry with the given key, if any. -/
def lookupKey {β : Type} : List (String × β) → String → Option β
  | [], _ => none
  | (k, v) :: rest, key => if k = key then some v else lookupKey rest key

/-- Map write: replace the first entry with the given key, or append one. -/
def setKey {β : Type} : List (String × β) → String → β → List (String × β)
  | [], key, v => [(key, v)]
  | (k, w) :: rest, key, v =>
    if k = key then (key, v) :: rest else (k, w) :: setKey rest key v

/-! ## The update data model (models.Update, models.LatestVersion) -/

structure LatestVersionPlatform where
  signature : String
  url : String
deriving DecidableEq

structure LatestVersion where
  version : String
  notes : String
  pubDate : String
  platforms : List (String × LatestVersionPlatform)
deriving DecidableEq

/-- The Go zero value a fresh decode target has before FindOne fills it
(a nil Platforms map is the empty association list). -/
def emptyLatestVersion : LatestVersion := ⟨"", "", "", []⟩

structure Update where
  version : String
  platform : String
  arch : String
  filename : String
  fileSize : Int
  signature : String
  releaseDate : String
  notes : String
  downloadURL : String
deriving DecidableEq

/-- The update record and its storage objects as UploadUpdate builds them
after trimming the leading letter v from the version: the storage key, the
download path, and the inserted database record. releaseDate stands for the
RFC3339-formatted upload time. -/
def mkUpdateRecord (version platform arch filename signature notes releaseDate : String)
    (fileSize : Int) : Update :=
  let v := trimV version
  { version := v
    platform := platform
    arch := arch
    filename := filename
    fileSize := fileSize
    signature := signature
    releaseDate := releaseDate
    notes := notes
    downloadURL := "/api/v1/updates/download/" ++ v ++ "/" ++ platform ++ "/" ++ arch ++ "/" ++ filename }

/-- Storage key written by UploadUpdate (after its v-trim of the version). -/
def uploadUpdateKey (version platform arch filename : String) : String :=
  "updates/" ++ trimV version ++ "/" ++ platform ++ "/" ++ arch ++ "/" ++ filename

/-- Storage key DownloadUpdate looks up (after its v-trim of the version). -/
def downloadUpdateKey (version platform arch filename : String) : String :=
  "updates/" ++ trimV version ++ "/" ++ platform ++ "/" ++ arch ++ "/" ++ filename

/-- The version string DeleteUpdate uses in its database filter
(after its v-trim of the version). -/
def deleteUpdateLookupVersion (version : String) : String := trimV version

/-! ## The latest-version aggregation (updateLatestVersionDocument) -/

/-- One step of the ensure-all-platform-keys loop: add an empty entry when the
key is missing. -/
def ensureStep (ps : List (String × LatestVersionPlatform)) (k : String) :
    List (String × LatestVersionPlatform) :=
  match lookupKey ps k with
  | some _ => ps
  | none => setKey ps k ⟨"", ""⟩

/-- Lines 550-558 of the updates handler: make sure every fixed
platform-arch key has an entry, filling missing ones with the empty entry. -/
def ensurePlatformKeys (ps : List (String × LatestVersionPlatform)) :
    List (String × LatestVersionPlatform) :=
  generateAllPlatformKeys.foldl ensureStep ps

/-- Lines 539-565 of the updates handler: build the platform entry for this
upload, ensure all fixed keys exist, take over non-empty notes, then
overwrite the entry for this upload's own platform-arch key. -/
def applyPlatformEntry (u : Update) (lv : LatestVersion) : LatestVersion :=
  let platformKey := u.platform ++ "-" ++ u.arch
  let platformInfo : LatestVersionPlatform :=
    { signature := if u.signature ≠ "" then u.signature else "", url := u.downloadURL }
  let lv1 : LatestVersion := { lv with platforms := ensurePlatformKeys lv.platforms }
  let lv2 : LatestVersion := if u.notes ≠ "" then { lv1 with notes := u.notes } else lv1
  { lv2 with platforms := setKey lv2.platforms platformKey platformInfo }

/-- updateLatestVersionDocument as a transformation of the stored singleton
document: the input is the document FindOne sees (none models ErrNoDocuments)
and the output is the stored document after the call. When the incoming
version is neither newer than nor equal to the current one the function
returns early and the store is untouched. -/
def updateLatestVersionDocument (existing : Option LatestVersion) (u : Update) :
    Option LatestVersion :=
  let latestVersion := existing.getD emptyLatestVersion
  if existing = none ∨ compareVersions u.version latestVersion.version > 0 then
    some (applyPlatformEntry u
      { latestVersion with
          version := u.version, notes := u.notes, pubDate := u.releaseDate })
  else if u.version ≠ latestVersion.version then
    existing
  else
    some (applyPlatformEntry u latestVersion)

/-! ## Concrete update records used by scenario theorems -/

def u100 : Update :=
  mkUpdateRecord "1.0.0" "linux" "x86_64" "app-1.0.0.tar.gz" "sig100" "" "2025-01-01T00:00:00Z" 10

def u090 : Update :=
  mkUpdateRecord "0.9.0" "linux" "x86_64" "app-0.9.0.tar.gz" "sig090" "" "2025-01-02T00:00:00Z" 9

/-- A stored aggregate whose platform map is empty (as any document written
before this handler existed, or the zero value, would decode). -/
def lvNoKeys : LatestVersion := ⟨"1.0.0", "", "2025-01-01T00:00:00Z", []⟩

/-- A stored aggregate holding the entry the 1.0.0 upload leaves for
linux-x86_64. -/
def lvSeed : LatestVersion :=
  ⟨"1.0.0", "", "2025-01-01T00:00:00Z",
    [("linux-x86_64",
      ⟨"sig100", "/api/v1/updates/download/1.0.0/linux/x86_64/app-1.0.0.tar.gz"⟩)]⟩

/-! ## The UploadUpdate response policy -/

/-- Outcome of each fallible step UploadUpdate performs, in source order:
the duplicate-count query, reading the two multipart files, the object-store
upload, the database insert, and the latest-version aggregation. -/
structure UploadUpdateOutcome where
  countErr : Bool
  duplicate : Bool
  fileFormErr : Bool
  signatureFormErr : Bool
  readSignatureErr : Bool
  storageErr : Bool
  insertErr : Bool
  aggregateErr : Bool
deriving DecidableEq

/-- The HTTP status UploadUpdate returns, as a function of the request's
platform and architecture and of each step's outcome, following the handler
body top to bottom. An aggregation error after a successful insert is only
logged: the handler still returns 201. -/
def uploadUpdateStatus (platform arch : String) (o : UploadUpdateOutcome) : Nat :=
  let arch := normalizeArchAlias arch
  if !isValidPlatform platform then 400
  else if !isValidArch arch then 400
  else if o.countErr then 500
  else if o.duplicate then 409
  else if o.fileFormErr then 400
  else if o.signatureFormErr then 400
  else if o.readSignatureErr then 500
  else if o.storageErr then 500
  else if o.insertErr then 500
  else 201

/-- Every step succeeding except the final latest-version aggregation. -/
def aggFailOutcome : UploadUpdateOutcome :=
  ⟨false, false, false, false, false, false, false, true⟩

/-! ## The download rate limiter -/

/-- middleware.RateLimitConfig. Times and rates are rational numbers of
seconds to keep the model exact. -/
structure RateLimitConfig where
  requestsPerSecond : ℚ
  burstSize : ℚ
  expirySeconds : ℚ
deriving DecidableEq

/-- The configuration the router wires for download endpoints:
1 request per second, bursts of 5, 5-minute visitor expiry. -/
def downloadRateLimitConfig : RateLimitConfig := ⟨1, 5, 300⟩

/-- One visitor's token bucket: remaining tokens and the time they were last
brought up to date. -/
structure Bucket where
  tokens : ℚ
  lastRefill : ℚ
deriving DecidableEq

/-- The limiter's visitor table. -/
structure LimiterState where
  visitors : List (String × Bucket)
deriving DecidableEq

/-- Modelled from the spec: the token-bucket admission decision itself lives
in the external golang.org/x/time/rate dependency (the repository source only
creates limiters per client identity in getVisitor and calls Allow), so allow
is modelled from specification section 4.5: a first-seen identity gets a fresh
bucket at full capacity, otherwise the bucket refills proportionally to
elapsed time capped at capacity; then one token is consumed when available. -/
def rateAllow (cfg : RateLimitConfig) (st : LimiterState) (id : String) (now : ℚ) :
    Bool × LimiterState :=
  match lookupKey st.visitors id with
  | none =>
    if cfg.burstSize ≥ 1 then
      (true, ⟨setKey st.visitors id ⟨cfg.burstSize - 1, now⟩⟩)
    else
      (false, ⟨setKey st.visitors id ⟨cfg.burstSize, now⟩⟩)
  | some b =>
    let refill := b.tokens + (now - b.lastRefill) * cfg.requestsPerSecond
    let tokens := if refill > cfg.burstSize then cfg.burstSize else refill
    if tokens ≥ 1 then
      (true, ⟨setKey st.visitors id ⟨tokens - 1, now⟩⟩)
    else
      (false, ⟨setKey st.visitors id ⟨tokens, now⟩⟩)

/-- One request from the single client identity 10.0.0.1 against the download
limiter configuration, at the given time in seconds. -/
def rlStep (st : LimiterState) (now : ℚ) : Bool × LimiterState :=
  rateAllow downloadRateLimitConfig st "10.0.0.1" now

/-- The burst scenario of the spec: requests 1-6 at time 0, requests 7-8 at
time 1, all from the same fresh identity. -/
def rl1 : Bool × LimiterState := rlStep ⟨[]⟩ 0

def rl2 : Bool × LimiterState := rlStep rl1.2 0

def rl3 : Bool × LimiterState := rlStep rl2.2 0

def rl4 : Bool × LimiterState := rlStep rl3.2 0

def rl5 : Bool × LimiterState := rlStep rl4.2 0

def rl6 : Bool × LimiterState := rlStep rl5.2 0

def rl7 : Bool × LimiterState := rlStep rl6.2 1

def rl8 : Bool × LimiterState := rlStep rl7.2 1

/-! ## The package catalog (models.Package, models.Version, models.File and
the catalog store operations of config.go) -/

structure PFile where
  name : String
  size : Int
  hash : String
  contentType : String
  downloadURL : String
  uploadedAt : String
deriving DecidableEq

structure VersionRec where
  id : Nat
  packageId : Nat
  version : String
  requirements : List String
  files : List PFile
  releaseNotes : String
  createdAt : String
deriving DecidableEq

structure PackageRec where
  id : Nat
  name : String
  description : String
  author : String
  isSystem : Bool
  isOfficial : Bool
  createdAt : String
deriving DecidableEq

structure Catalog where
  packages : List PackageRec
  versions : List VersionRec
deriving DecidableEq

/-- GetPackage: FindOne by name (first match, none when absent). -/
def getPackage (ps : List PackageRec) (name : String) : Option PackageRec :=
  ps.find? (fun p => p.name == name)

/-- GetVersion: FindOne by (package_id, version). -/
def getVersion (vs : List VersionRec) (pid : Nat) (version : String) : Option VersionRec :=
  vs.find? (fun v => v.packageId == pid && v.version == version)

/-- CreateVersion: InsertOne. -/
def createVersion (vs : List VersionRec) (v : VersionRec) : List VersionRec :=
  vs ++ [v]

/-- AddFileToVersion: UpdateOne with a push onto the files array of the first
document matching (package_id, version). -/
def addFileToVersion : List VersionRec → Nat → String → PFile → List VersionRec
  | [], _, _, _ => []
  | v :: vs, pid, version, f =>
    if v.packageId = pid ∧ v.version = version then
      { v with files := v.files ++ [f] } :: vs
    else
      v :: addFileToVersion vs pid version f

/-- RemoveFileFromVersion: UpdateOne with a pull of every files-array element
whose name matches, on the first document matching (package_id, version).
The document itself is kept even when its file list becomes empty. -/
def removeFileFromVersion : List VersionRec → Nat → String → String → List VersionRec
  | [], _, _, _ => []
  | v :: vs, pid, version, filename =>
    if v.packageId = pid ∧ v.version = version then
      { v with files := v.files.filter (fun f => f.name != filename) } :: vs
    else
      v :: removeFileFromVersion vs pid version filename

/-- The signed URL the object store adapter hands out for a key (opaque to
the handlers; modelled as a tagged copy of the key). -/
def signedURLFor (key : String) : String := "signed:" ++ key

/-- UploadPackage composed with processUploadedFile, as a transformation of
the catalog and the object store. hashHex abstracts the hex-encoded sha256
content digest; storageOk and signedOk are the object-store call outcomes.
Returns (HTTP status, catalog, store). The storage key is derived from the
content hash and the filename; the catalog is only touched after the
object-store upload and the signed-URL call both succeed. -/
def uploadPackage (hashHex : List Nat → String) (cat : Catalog)
    (store : List (String × List Nat)) (name version filename contentType : String)
    (content : List Nat) (storageOk signedOk : Bool) (now : String) :
    Nat × Catalog × List (String × List Nat) :=
  match getPackage cat.packages name with
  | none => (404, cat, store)
  | some pkg =>
    let fileHash := hashHex content
    let s3Key := "packages/" ++ fileHash ++ "/" ++ filename
    if !storageOk then (500, cat, store)
    else
      let store1 := setKey store s3Key content
      if !signedOk then (500, cat, store1)
      else
        let fm : PFile :=
          ⟨filename, (content.length : Int), fileHash, contentType, signedURLFor s3Key, now⟩
        match getVersion cat.versions pkg.id version with
        | none =>
          (200,
            { cat with versions := createVersion cat.versions ⟨0, pkg.id, version, [], [fm], "", now⟩ },
            store1)
        | some _ =>
          (200, { cat with versions := addFileToVersion cat.versions pkg.id version fm }, store1)

inductive DownloadOutcome where
  | notFound : DownloadOutcome
  | redirect (signedURL : String) : DownloadOutcome
deriving DecidableEq

/-- DownloadPackage: resolve the package, the version and the file record in
the catalog, then look the object up in the store under a key derived from
the package name, the version and the filename (the file record's hash is
retrieved but not used for the key), and redirect to its signed URL. -/
def downloadPackage (cat : Catalog) (store : List (String × List Nat))
    (name version filename : String) : DownloadOutcome :=
  match getPackage cat.packages name with
  | none => .notFound
  | some pkg =>
    match getVersion cat.versions pkg.id version with
    | none => .notFound
    | some ver =>
      match ver.files.find? (fun f => f.name == filename) with
      | none => .notFound
      | some _ =>
        let s3Key := "packages/" ++ name ++ "/" ++ version ++ "/" ++ filename
        match lookupKey store s3Key with
        | none => .notFound
        | some _ => .redirect (signedURLFor s3Key)

/-- The DeletePackage handler: resolve the package by name, then remove the
file from the version document; packages are never touched. -/
def deletePackageFile (cat : Catalog) (name version filename : String) : Nat × Catalog :=
  match getPackage cat.packages name with
  | none => (404, cat)
  | some pkg =>
    (200, { cat with versions := removeFileFromVersion cat.versions pkg.id version filename })

/-- A catalog holding one package named demo and no versions yet. -/
def demoCatalog : Catalog :=
  ⟨[⟨1, "demo", "demo package", "author", false, false, "2025-01-01T00:00:00Z"⟩], []⟩

/-- A stand-in for the hex sha256 digest (the handlers treat it opaquely). -/
def demoHash : List Nat → String := fun _ => "4a5c"

/-! # Theorems -/

/-! ## Arithmetic facts about the embedded Go string parsing -/

theorem digitsFold_lt (l : List Char) (h : ∀ c ∈ l, isDigitCh c = true) (a : Nat) :
    l.foldl (fun a c => a * 10 + (c.toNat - 48)) a < (a + 1) * 10 ^ l.length := by
  induction l generalizing a with
  | nil => simp
  | cons c l ih =>
    have hc : c.toNat - 48 ≤ 9 := by
      have hd := h c (List.mem_cons_self c l)
      simp only [isDigitCh, Bool.and_eq_true, decide_eq_true_eq] at hd
      omega
    have h' : ∀ c' ∈ l, isDigitCh c' = true :=
      fun c' hc' => h c' (List.mem_cons_of_mem _ hc')
    have step := ih h' (a * 10 + (c.toNat - 48))
    have grow : (a * 10 + (c.toNat - 48) + 1) * 10 ^ l.length ≤ (a + 1) * 10 ^ (l.length + 1) := by
      have hle : a * 10 + (c.toNat - 48) + 1 ≤ (a + 1) * 10 := by omega
      calc (a * 10 + (c.toNat - 48) + 1) * 10 ^ l.length
          ≤ ((a + 1) * 10) * 10 ^ l.length := Nat.mul_le_mul_right _ hle
        _ = (a + 1) * 10 ^ (l.length + 1) := by ring
    calc (c :: l).foldl (fun a c => a * 10 + (c.toNat - 48)) a
        = l.foldl (fun a c => a * 10 + (c.toNat - 48)) (a * 10 + (c.toNat - 48)) := rfl
      _ < (a * 10 + (c.toNat - 48) + 1) * 10 ^ l.length := step
      _ ≤ (a + 1) * 10 ^ (l.length + 1) := grow
      _ = (a + 1) * 10 ^ (c :: l).length := by simp

theorem digitsToNat_lt (l : List Char) (h : ∀ c ∈ l, isDigitCh c = true) :
    digitsToNat l < 10 ^ l.length := by
  have hf := digitsFold_lt l h 0
  simp only [Nat.zero_add, Nat.one_mul] at hf
  exact hf

theorem splitSign_snd_length (l : List Char) : (splitSign l).2.length ≤ l.length := by
  cases l with
  | nil => simp [splitSign]
  | cons c rest => simp only [splitSign]; split_ifs <;> simp

theorem atoiVal_bound (l : List Char) (h : l.length ≤ 18) :
    -(10 ^ 18 : Int) < atoiVal l ∧ atoiVal l < 10 ^ 18 := by
  unfold atoiVal
  by_cases hcond : (splitSign l).2 ≠ [] ∧ (splitSign l).2.all isDigitCh
  · have hlen : (splitSign l).2.length ≤ 18 := le_trans (splitSign_snd_length l) h
    have hd : ∀ c ∈ (splitSign l).2, isDigitCh c = true := List.all_eq_true.mp hcond.2
    have hn : digitsToNat (splitSign l).2 < 10 ^ 18 :=
      lt_of_lt_of_le (digitsToNat_lt _ hd)
        (Nat.pow_le_pow_right (by norm_num) hlen)
    have hint : (digitsToNat (splitSign l).2 : Int) < 10 ^ 18 := by exact_mod_cast hn
    have hpos : (0 : Int) ≤ (digitsToNat (splitSign l).2 : Int) := Int.natCast_nonneg _
    rw [if_pos hcond]
    split_ifs <;> constructor <;> omega
  · rw [if_neg hcond]
    norm_num

theorem goAtoi_eq_atoiVal (l : List Char) (h : l.length ≤ 18) : goAtoi l = atoiVal l := by
  have hb := atoiVal_bound l h
  unfold goAtoi clampInt64 int64Max int64Min
  have h18 : (10 : Int) ^ 18 = 1000000000000000000 := by norm_num
  rw [h18] at hb
  rw [if_neg (by omega), if_neg (by omega)]

/-! ## Structural facts about the segment comparison -/

theorem cmpParts_eq_specCmpParts :
    ∀ (as bs : List (List Char)),
      (∀ p ∈ as, p.length ≤ 18) → (∀ p ∈ bs, p.length ≤ 18) →
      cmpParts as bs = specCmpParts as bs
  | [], [], _, _ => rfl
  | [], _ :: _, _, _ => rfl
  | _ :: _, [], _, _ => rfl
  | a :: as, b :: bs, ha, hb => by
    have h1 := goAtoi_eq_atoiVal a (ha a (List.mem_cons_self a as))
    have h2 := goAtoi_eq_atoiVal b (hb b (List.mem_cons_self b bs))
    have hrec := cmpParts_eq_specCmpParts as bs
      (fun p hp => ha p (List.mem_cons_of_mem _ hp))
      (fun p hp => hb p (List.mem_cons_of_mem _ hp))
    simp only [cmpParts, specCmpParts, h1, h2, hrec]

theorem cmpParts_refl : ∀ l : List (List Char), cmpParts l l = 0
  | [] => rfl
  | a :: as => by
    simp only [cmpParts]
    rw [if_neg (lt_irrefl _), if_neg (lt_irrefl _)]
    exact cmpParts_refl as

theorem compareVersions_self (v : String) : compareVersions v v = 0 :=
  cmpParts_refl _

theorem trimVChars_cons_v (l : List Char) : trimVChars ('v' :: l) = l := by
  simp [trimVChars]

theorem trimVChars_no_v (l : List Char) (h : l.head? ≠ some 'v') : trimVChars l = l := by
  cases l with
  | nil => rfl
  | cons c rest =>
    simp only [trimVChars]
    rw [if_neg]
    intro hc
    exact h (by simp [hc])

theorem trimV_data (s : String) : (trimV s).data = trimVChars s.data := rfl

theorem lookupKey_setKey_self {β : Type} :
    ∀ (ps : List (String × β)) (k : String) (v : β),
      lookupKey (setKey ps k v) k = some v
  | [], k, v => by simp [setKey, lookupKey]
  | (k', w) :: rest, k, v => by
    by_cases h : k' = k
    · simp [setKey, lookupKey, h]
    · simp only [setKey, lookupKey, if_neg h]
      exact lookupKey_setKey_self rest k v

theorem lookupKey_setKey_ne {β : Type} :
    ∀ (ps : List (String × β)) (k k' : String) (v : β), k' ≠ k →
      lookupKey (setKey ps k v) k' = lookupKey ps k'
  | [], k, k', v, h => by simp [setKey, lookupKey, Ne.symm h]
  | (k0, w) :: rest, k, k', v, h => by
    by_cases h0 : k0 = k
    · simp only [setKey, if_pos h0, lookupKey, if_neg (Ne.symm h), h0]
    · simp only [setKey, if_neg h0, lookupKey]
      by_cases h1 : k0 = k'
      · simp [h1]
      · rw [if_neg h1, if_neg h1]
        exact lookupKey_setKey_ne rest k k' v h

theorem lookupKey_ensureFold_isSome :
    ∀ (ks : List String) (ps : List (String × LatestVersionPlatform)) (k : String),
      (k ∈ ks ∨ (lookupKey ps k).isSome = true) →
      (lookupKey (ks.foldl ensureStep ps) k).isSome = true
  | [], ps, k, h => by
    rcases h with h | h
    · exact absurd h (List.not_mem_nil k)
    · exact h
  | k' :: ks, ps, k, h => by
    show (lookupKey (ks.foldl ensureStep (ensureStep ps k')) k).isSome = true
    apply lookupKey_ensureFold_isSome ks (ensureStep ps k') k
    rcases h with h | h
    · rcases List.mem_cons.mp h with rfl | hmem
      · right
        unfold ensureStep
        cases hcase : lookupKey ps k with
        | some v => simp [hcase]
        | none => simp [lookupKey_setKey_self]
      · left
        exact hmem
    · right
      unfold ensureStep
      cases hcase : lookupKey ps k' with
      | some v => exact h
      | none =>
        by_cases hk : k = k'
        · subst hk
          rw [hcase] at h
          exact absurd h (by simp)
        · rw [lookupKey_setKey_ne ps k' k _ hk]
          exact h

theorem lookupKey_ensurePlatformKeys_isSome (ps : List (String × LatestVersionPlatform))
    (k : String) (h : k ∈ generateAllPlatformKeys ∨ (lookupKey ps k).isSome = true) :
    (lookupKey (ensurePlatformKeys ps) k).isSome = true :=
  lookupKey_ensureFold_isSome generateAllPlatformKeys ps k h

theorem applyPlatformEntry_platforms (u : Update) (lv : LatestVersion) :
    (applyPlatformEntry u lv).platforms =
      setKey (ensurePlatformKeys lv.platforms) (u.platform ++ "-" ++ u.arch)
        ⟨if u.signature ≠ "" then u.signature else "", u.downloadURL⟩ := by
  by_cases hn : u.notes = "" <;> simp [applyPlatformEntry, hn]

theorem lookup_applyPlatformEntry_isSome (u : Update) (lv : LatestVersion) (k : String)
    (h : k ∈ generateAllPlatformKeys ∨ (lookupKey lv.platforms k).isSome = true) :
    (lookupKey (applyPlatformEntry u lv).platforms k).isSome = true := by
  rw [applyPlatformEntry_platforms]
  by_cases hk : k = u.platform ++ "-" ++ u.arch
  · subst hk
    rw [lookupKey_setKey_self]
    rfl
  · rw [lookupKey_setKey_ne _ _ _ _ hk]
    exact lookupKey_ensurePlatformKeys_isSome lv.platforms k h

/-- Claim C1, counterexample. The claim says an upload whose version is
strictly older leaves version, notes and date alone but still overwrites its
own platform entry. In the code the strictly-older path returns before any
write: after uploading 1.0.0 and then 0.9.0 for linux/x86_64, the stored
aggregate is exactly what the 1.0.0 upload left (version 1.0.0, and the
linux-x86_64 entry still carries the 1.0.0 signature and URL, not the 0.9.0
ones). -/
theorem updateLatest_older_overwrite_counterexample :
    updateLatestVersionDocument (updateLatestVersionDocument none u100) u090 =
      updateLatestVersionDocument none u100 ∧
    ((updateLatestVersionDocument (updateLatestVersionDocument none u100) u090).getD
        emptyLatestVersion).version = "1.0.0" ∧
    lookupKey
        ((updateLatestVersionDocument (updateLatestVersionDocument none u100) u090).getD
          emptyLatestVersion).platforms "linux-x86_64" =
      some ⟨"sig100", "/api/v1/updates/download/1.0.0/linux/x86_64/app-1.0.0.tar.gz"⟩ ∧
    lookupKey
        ((updateLatestVersionDocument (updateLatestVersionDocument none u100) u090).getD
          emptyLatestVersion).platforms "linux-x86_64" ≠
      some ⟨u090.signature, u090.downloadURL⟩ := by
  decide

/-- Claim C1, amended: when an aggregate document exists and the uploaded
version compares strictly less than the stored version, the aggregation
routine is a no-op: it neither touches version, notes or date, nor the
platform mapping entry of the upload (the strictly-older branch returns
before step 5 and step 6 run). -/
theorem updateLatest_older_noop (lv : LatestVersion) (u : Update)
    (h : compareVersions u.version lv.version < 0) :
    updateLatestVersionDocument (some lv) u = some lv := by
  have hne : u.version ≠ lv.version := by
    intro he
    rw [he, compareVersions_self] at h
    omega
  have hcond : ¬(some lv = none ∨ compareVersions u.version lv.version > 0) := by
    rintro (h1 | h2)
    · exact Option.noConfusion h1
    · omega
  simp only [updateLatestVersionDocument, Option.getD_some]
  rw [if_neg hcond, if_pos hne]

/-- Witness for updateLatest_older_noop at a concrete aggregate and upload. -/
theorem updateLatest_older_noop_witness :
    updateLatestVersionDocument (some lvSeed) u090 = some lvSeed :=
  updateLatest_older_noop lvSeed u090 (by decide)

/-- Claim C4, counterexample. The claim says every aggregation run,
unconditionally, leaves the aggregate with an entry for each of the 12 fixed
platform-arch keys. On the strictly-older early-return path the routine does
not run the fill step: starting from a stored aggregate with an empty
platform map, aggregating a 0.9.0 upload leaves windows-x86_64 (a fixed key)
absent. -/
theorem updateLatest_platformKeys_counterexample :
    updateLatestVersionDocument (some lvNoKeys) u090 = some lvNoKeys ∧
    lookupKey lvNoKeys.platforms "windows-x86_64" = none ∧
    "windows-x86_64" ∈ generateAllPlatformKeys := by
  decide

/-- Claim C4, amended: every aggregation run that writes (no aggregate
existed yet, or the uploaded version is strictly greater, or it equals the
stored version string) leaves an entry for each of the 12 fixed
platform-arch keys; and no run — writing or early-returning — ever removes
an existing platform entry. -/
theorem updateLatest_platformKeys (existing : Option LatestVersion) (u : Update) :
    ((existing = none ∨
        compareVersions u.version (existing.getD emptyLatestVersion).version > 0 ∨
        u.version = (existing.getD emptyLatestVersion).version) →
      ∀ k ∈ generateAllPlatformKeys,
        (lookupKey ((updateLatestVersionDocument existing u).getD
          emptyLatestVersion).platforms k).isSome = true) ∧
    (∀ k, (lookupKey (existing.getD emptyLatestVersion).platforms k).isSome = true →
      (lookupKey ((updateLatestVersionDocument existing u).getD
        emptyLatestVersion).platforms k).isSome = true) := by
  constructor
  · intro hW k hk
    simp only [updateLatestVersionDocument]
    by_cases hc : existing = none ∨
        compareVersions u.version (existing.getD emptyLatestVersion).version > 0
    · rw [if_pos hc, Option.getD_some]
      exact lookup_applyPlatformEntry_isSome u _ k (Or.inl hk)
    · by_cases hv : u.version ≠ (existing.getD emptyLatestVersion).version
      · rcases hW with h1 | h2 | h3
        · exact absurd (Or.inl h1) hc
        · exact absurd (Or.inr h2) hc
        · exact absurd h3 hv
      · rw [if_neg hc, if_neg hv, Option.getD_some]
        exact lookup_applyPlatformEntry_isSome u _ k (Or.inl hk)
  · intro k hk
    simp only [updateLatestVersionDocument]
    by_cases hc : existing = none ∨
        compareVersions u.version (existing.getD emptyLatestVersion).version > 0
    · rw [if_pos hc, Option.getD_some]
      exact lookup_applyPlatformEntry_isSome u _ k (Or.inr hk)
    · by_cases hv : u.version ≠ (existing.getD emptyLatestVersion).version
      · rw [if_neg hc, if_pos hv]
        exact hk
      · rw [if_neg hc, if_neg hv, Option.getD_some]
        exact lookup_applyPlatformEntry_isSome u _ k (Or.inr hk)

/-- Witness for updateLatest_platformKeys: a first upload fills the
windows-x86_64 key, and an early-returning older upload keeps the existing
linux-x86_64 entry. -/
theorem updateLatest_platformKeys_witness :
    (lookupKey ((updateLatestVersionDocument none u100).getD
        emptyLatestVersion).platforms "windows-x86_64").isSome = true ∧
    (lookupKey ((updateLatestVersionDocument (some lvSeed) u090).getD
        emptyLatestVersion).platforms "linux-x86_64").isSome = true :=
  ⟨(updateLatest_platformKeys none u100).1 (Or.inl rfl) "windows-x86_64" (by decide),
   (updateLatest_platformKeys (some lvSeed) u090).2 "linux-x86_64" (by decide)⟩

/-- Claim C3, counterexample. The claim describes compareVersions as pure
segment-wise comparison of its two argument strings. The code first strips
one leading letter v from each argument, so on the inputs v3 and 2 it
returns 1 (3 against 2) where the described segment-wise comparison returns
-1 (the non-numeric segment v3 parses as 0, and 0 is less than 2). -/
theorem compareVersions_segmentwise_counterexample :
    compareVersions "v3" "2" = 1 ∧ segmentwiseCompare "v3" "2" = -1 := by
  decide

/-- Claim C3, amended: after first stripping one leading letter v from each
input, compareVersions is exactly the segment-wise numeric comparison the
claim describes (split on dots, first differing segment decides, non-numeric
segments parse as 0, more segments wins on a tie), for inputs whose segments
are at most 18 characters long (beyond that Go clamps to the int64 range);
and the three quoted examples hold. -/
theorem compareVersions_segmentwise (v1 v2 : String)
    (h1 : ∀ p ∈ splitOnDot (trimVChars v1.data), p.length ≤ 18)
    (h2 : ∀ p ∈ splitOnDot (trimVChars v2.data), p.length ≤ 18) :
    compareVersions v1 v2 = segmentwiseCompare (trimV v1) (trimV v2) ∧
    compareVersions "1.10.0" "1.2.0" = 1 ∧
    compareVersions "1.2" "1.2.0" = -1 ∧
    compareVersions "2.0.0" "2.0.0" = 0 := by
  refine ⟨?_, by decide, by decide, by decide⟩
  unfold compareVersions segmentwiseCompare
  rw [trimV_data, trimV_data]
  exact cmpParts_eq_specCmpParts _ _ h1 h2

/-- Witness for compareVersions_segmentwise at concrete version strings. -/
theorem compareVersions_segmentwise_witness :
    compareVersions "1.2.3" "1.10" = segmentwiseCompare (trimV "1.2.3") (trimV "1.10") ∧
    compareVersions "1.10.0" "1.2.0" = 1 ∧
    compareVersions "1.2" "1.2.0" = -1 ∧
    compareVersions "2.0.0" "2.0.0" = 0 :=
  compareVersions_segmentwise "1.2.3" "1.10" (by decide) (by decide)

/-- Claim C10, counterexample. The claim quantifies over every version
string. Since the handlers strip exactly one leading letter v, a version
string that itself begins with v is not treated the same with an extra v in
front: compare of vv1 against v1 is -1, not 0, and the upload storage key of
vv1 differs from that of v1. -/
theorem updateOps_vPrefix_counterexample :
    compareVersions ("v" ++ "v1") "v1" = -1 ∧
    uploadUpdateKey ("v" ++ "v1") "linux" "x86_64" "app.tar.gz" ≠
      uploadUpdateKey "v1" "linux" "x86_64" "app.tar.gz" := by
  decide

/-- Claim C10, amended: for every version string v that does not itself begin
with the letter v, the update upload, download and delete operations treat
the input "v" ++ v identically to v — the storage keys coincide, the
database filter version coincides, the inserted record coincides — and
compareVersions of "v" ++ v against v is 0. -/
theorem updateOps_vPrefix (v platform arch filename sigBlob notes date : String)
    (fileSize : Int) (hv : v.data.head? ≠ some 'v') :
    uploadUpdateKey ("v" ++ v) platform arch filename =
      uploadUpdateKey v platform arch filename ∧
    downloadUpdateKey ("v" ++ v) platform arch filename =
      downloadUpdateKey v platform arch filename ∧
    deleteUpdateLookupVersion ("v" ++ v) = deleteUpdateLookupVersion v ∧
    mkUpdateRecord ("v" ++ v) platform arch filename sigBlob notes date fileSize =
      mkUpdateRecord v platform arch filename sigBlob notes date fileSize ∧
    compareVersions ("v" ++ v) v = 0 := by
  have hdata : ("v" ++ v).data = 'v' :: v.data := by
    simp [String.data_append]
  have htrimc : trimVChars ("v" ++ v).data = v.data := by
    rw [hdata, trimVChars_cons_v]
  have htrimv : trimVChars v.data = v.data := trimVChars_no_v v.data hv
  have htrim : trimV ("v" ++ v) = trimV v := by
    apply String.ext
    rw [trimV_data, trimV_data, htrimc, htrimv]
  refine ⟨?_, ?_, ?_, ?_, ?_⟩
  · unfold uploadUpdateKey
    rw [htrim]
  · unfold downloadUpdateKey
    rw [htrim]
  · unfold deleteUpdateLookupVersion
    rw [htrim]
  · unfold mkUpdateRecord
    rw [htrim]
  · unfold compareVersions
    rw [htrimc, htrimv]
    exact cmpParts_refl _

/-- Witness for updateOps_vPrefix at concrete inputs. -/
theorem updateOps_vPrefix_witness :
    uploadUpdateKey ("v" ++ "1.2.3") "linux" "x86_64" "app.tar.gz" =
      uploadUpdateKey "1.2.3" "linux" "x86_64" "app.tar.gz" ∧
    downloadUpdateKey ("v" ++ "1.2.3") "linux" "x86_64" "app.tar.gz" =
      downloadUpdateKey "1.2.3" "linux" "x86_64" "app.tar.gz" ∧
    deleteUpdateLookupVersion ("v" ++ "1.2.3") = deleteUpdateLookupVersion "1.2.3" ∧
    mkUpdateRecord ("v" ++ "1.2.3") "linux" "x86_64" "app.tar.gz" "sig" "" "2025-01-01" 5 =
      mkUpdateRecord "1.2.3" "linux" "x86_64" "app.tar.gz" "sig" "" "2025-01-01" 5 ∧
    compareVersions ("v" ++ "1.2.3") "1.2.3" = 0 :=
  updateOps_vPrefix "1.2.3" "linux" "x86_64" "app.tar.gz" "sig" "" "2025-01-01" 5 (by decide)

/-- Claim C8: with the router's download limiter configuration (1 token per
second, burst 5), a fresh client identity is admitted on its first 5
instantaneous requests (the lazily created bucket starts full), the 6th
instantaneous request is rejected, and after waiting one second exactly one
further request is admitted (the 7th succeeds and an immediate 8th fails). -/
theorem downloadRateLimiter_burst_scenario :
    rl1.1 = true ∧ rl2.1 = true ∧ rl3.1 = true ∧ rl4.1 = true ∧ rl5.1 = true ∧
      rl6.1 = false ∧ rl7.1 = true ∧ rl8.1 = false := by
  norm_num [rl1, rl2, rl3, rl4, rl5, rl6, rl7, rl8, rlStep, rateAllow,
    downloadRateLimitConfig, lookupKey, setKey]

theorem normalizeArchAlias_idem (a : String) :
    normalizeArchAlias (normalizeArchAlias a) = normalizeArchAlias a := by
  unfold normalizeArchAlias
  split_ifs <;> simp_all

theorem isValidArch_normalize (a : String) :
    isValidArch (normalizeArchAlias a) = isValidArch a := by
  unfold isValidArch
  rw [normalizeArchAlias_idem]

/-- Claim C5, counterexample: with a valid platform and architecture and all
steps through the database insert succeeding, a failing latest-version
aggregation still yields status 201, which is not an error response. -/
theorem uploadUpdate_aggFailure_counterexample :
    uploadUpdateStatus "linux" "x86_64" aggFailOutcome = 201 ∧
    ¬(400 ≤ uploadUpdateStatus "linux" "x86_64" aggFailOutcome) := by
  decide

/-- Claim C5, amended: when the aggregation step fails after a successful
database insert of the update record, UploadUpdate logs the failure and still
reports success (201) to the client; the request is not aborted. -/
theorem uploadUpdate_aggFailure_success (platform arch : String) (o : UploadUpdateOutcome)
    (hp : isValidPlatform platform = true) (ha : isValidArch arch = true)
    (h1 : o.countErr = false) (h2 : o.duplicate = false) (h3 : o.fileFormErr = false)
    (h4 : o.signatureFormErr = false) (h5 : o.readSignatureErr = false)
    (h6 : o.storageErr = false) (h7 : o.insertErr = false) (_h8 : o.aggregateErr = true) :
    uploadUpdateStatus platform arch o = 201 := by
  simp [uploadUpdateStatus, isValidArch_normalize, hp, ha, h1, h2, h3, h4, h5, h6, h7]

/-- Witness for uploadUpdate_aggFailure_success at a concrete request. -/
theorem uploadUpdate_aggFailure_success_witness :
    uploadUpdateStatus "linux" "x86_64" aggFailOutcome = 201 :=
  uploadUpdate_aggFailure_success "linux" "x86_64" aggFailOutcome (by decide) (by decide)
    rfl rfl rfl rfl rfl rfl rfl rfl

/-- Claim C6: when the object-store upload step fails, UploadPackage (for an
existing package) returns the storage error and performs no catalog write at
all — the catalog and even the store are exactly what they were. -/
theorem uploadPackage_storageFail_noCatalogWrite (hashHex : List Nat → String)
    (cat : Catalog) (store : List (String × List Nat))
    (name version filename contentType : String) (content : List Nat)
    (signedOk : Bool) (now : String)
    (h : (getPackage cat.packages name).isSome = true) :
    uploadPackage hashHex cat store name version filename contentType content false signedOk now =
      (500, cat, store) := by
  unfold uploadPackage
  cases hp : getPackage cat.packages name with
  | none =>
    rw [hp] at h
    exact absurd h (by simp)
  | some pkg => simp [hp]

/-- Witness for uploadPackage_storageFail_noCatalogWrite at concrete inputs. -/
theorem uploadPackage_storageFail_noCatalogWrite_witness :
    uploadPackage demoHash demoCatalog [] "demo" "1.0.0" "agent.zip" "application/zip"
      [1, 2, 3] false true "2025-01-02T00:00:00Z" = (500, demoCatalog, []) :=
  uploadPackage_storageFail_noCatalogWrite demoHash demoCatalog [] "demo" "1.0.0"
    "agent.zip" "application/zip" [1, 2, 3] true "2025-01-02T00:00:00Z" (by decide)

/-- Claim C7: isValidPlatform accepts exactly windows, darwin and linux, and
isValidArch accepts exactly x86_64, i686, armv7 and aarch64 together with the
aliases x86 (normalized to i686) and arm64 (normalized to aarch64), both
rejecting every other string including case variants. -/
theorem validPlatformArch_exact :
    (∀ p : String, isValidPlatform p = true ↔ (p = "windows" ∨ p = "darwin" ∨ p = "linux")) ∧
    (∀ a : String, isValidArch a = true ↔
      (a = "x86_64" ∨ a = "i686" ∨ a = "armv7" ∨ a = "aarch64" ∨ a = "x86" ∨ a = "arm64")) ∧
    normalizeArchAlias "x86" = "i686" ∧ normalizeArchAlias "arm64" = "aarch64" := by
  refine ⟨fun p => ?_, fun a => ?_, by decide, by decide⟩
  · simp [isValidPlatform]
  · by_cases h1 : a = "x86" <;> by_cases h2 : a = "arm64" <;>
      simp [isValidArch, normalizeArchAlias, h1, h2]

theorem removeFileFromVersion_split :
    ∀ (pre : List VersionRec) (v : VersionRec) (post : List VersionRec)
      (pid : Nat) (version filename : String),
      (∀ w ∈ pre, ¬(w.packageId = pid ∧ w.version = version)) →
      v.packageId = pid → v.version = version →
      removeFileFromVersion (pre ++ v :: post) pid version filename =
        pre ++ { v with files := v.files.filter (fun f => f.name != filename) } :: post
  | [], v, post, pid, version, filename, _, hv1, hv2 => by
    simp [removeFileFromVersion, hv1, hv2]
  | w :: pre, v, post, pid, version, filename, hpre, hv1, hv2 => by
    have hw := hpre w (List.mem_cons_self w pre)
    simp only [List.cons_append, removeFileFromVersion, if_neg hw]
    exact congrArg (fun l => w :: l)
      (removeFileFromVersion_split pre v post pid version filename
        (fun x hx => hpre x (List.mem_cons_of_mem _ hx)) hv1 hv2)

/-- Claim C9: deleting a file by name from an existing version replaces only
that version's file list by the same list with the matching entries removed;
the packages are untouched, the version record keeps its identity,
requirements, notes and timestamps, every other version is untouched, and
the version record persists even when its file list becomes empty. -/
theorem deletePackageFile_frame (cat : Catalog) (name version filename : String)
    (pkg : PackageRec) (pre post : List VersionRec) (v : VersionRec)
    (hp : getPackage cat.packages name = some pkg)
    (hsplit : cat.versions = pre ++ v :: post)
    (hpre : ∀ w ∈ pre, ¬(w.packageId = pkg.id ∧ w.version = version))
    (hv1 : v.packageId = pkg.id) (hv2 : v.version = version) :
    deletePackageFile cat name version filename =
      (200, ⟨cat.packages,
        pre ++ { v with files := v.files.filter (fun f => f.name != filename) } :: post⟩) := by
  unfold deletePackageFile
  simp only [hp]
  rw [hsplit, removeFileFromVersion_split pre v post pkg.id version filename hpre hv1 hv2]

/-- Witness for deletePackageFile_frame: deleting the only file of the only
version empties the file list but keeps the package and version records. -/
theorem deletePackageFile_frame_witness :
    deletePackageFile
        ⟨demoCatalog.packages,
          [⟨7, 1, "1.0.0", ["python"],
            [⟨"agent.zip", 3, "4a5c", "application/zip", "signed:packages/4a5c/agent.zip",
              "2025-01-02T00:00:00Z"⟩], "first release", "2025-01-02T00:00:00Z"⟩]⟩
        "demo" "1.0.0" "agent.zip" =
      (200, ⟨demoCatalog.packages,
        [] ++ { (⟨7, 1, "1.0.0", ["python"],
            [⟨"agent.zip", 3, "4a5c", "application/zip", "signed:packages/4a5c/agent.zip",
              "2025-01-02T00:00:00Z"⟩], "first release", "2025-01-02T00:00:00Z"⟩ : VersionRec) with
          files := List.filter (fun f => f.name != "agent.zip")
            [⟨"agent.zip", 3, "4a5c", "application/zip", "signed:packages/4a5c/agent.zip",
              "2025-01-02T00:00:00Z"⟩] } :: []⟩) :=
  deletePackageFile_frame _ "demo" "1.0.0" "agent.zip"
    ⟨1, "demo", "demo package", "author", false, false, "2025-01-01T00:00:00Z"⟩ [] []
    _ (by decide) rfl (fun w hw => absurd hw (List.not_mem_nil w)) rfl rfl

/-- Claim C2, code bug: after a successful upload of agent.zip (bytes 1,2,3)
to package demo version 1.0.0, the object sits in the store under the
hash-derived key packages/4a5c/agent.zip, yet downloading (demo, 1.0.0,
agent.zip) reports not-found: DownloadPackage looks the object up under
packages/demo/1.0.0/agent.zip, a key the upload never wrote. -/
theorem packageRoundTrip_key_mismatch :
    (uploadPackage demoHash demoCatalog [] "demo" "1.0.0" "agent.zip" "application/zip"
      [1, 2, 3] true true "2025-01-02T00:00:00Z").1 = 200 ∧
    lookupKey
      (uploadPackage demoHash demoCatalog [] "demo" "1.0.0" "agent.zip" "application/zip"
        [1, 2, 3] true true "2025-01-02T00:00:00Z").2.2
      "packages/4a5c/agent.zip" = some [1, 2, 3] ∧
    downloadPackage
      (uploadPackage demoHash demoCatalog [] "demo" "1.0.0" "agent.zip" "application/zip"
        [1, 2, 3] true true "2025-01-02T00:00:00Z").2.1
      (uploadPackage demoHash demoCatalog [] "demo" "1.0.0" "agent.zip" "application/zip"
        [1, 2, 3] true true "2025-01-02T00:00:00Z").2.2
      "demo" "1.0.0" "agent.zip" = .notFound := by
  decide

end Registry
